import Mathlib

/-!
# Verification of the Dominion Energy schedule extractor and API server

A shallow embedding of `dominion_energy_extractor_render.py` (the extractor:
date parsing, schedule normalization, aggregation) and `api_server_with_get.py`
(the Flask store/serve API), with theorems checking the natural-language
specification against the code.

Conventions of the embedding:
* Python `datetime` values are modelled as epoch milliseconds (`Int`);
  `.date()` is modelled as the floored epoch day (`msDay`), treating local
  time as a fixed offset.  Comparisons of the `'%Y-%m-%d'` date strings used
  as sort keys agree with comparisons of epoch days, so the `date` field of a
  schedule entry is modelled as that epoch day.
* Python strings are Lean `String`s; the string operations the code uses
  (`split`, `startswith`, slicing, `upper`, `int()`) are modelled on the
  underlying character lists, matching Python's per-codepoint semantics.
* Operations that can raise an uncaught Python exception are modelled in
  `Except Unit`; `Except.error ()` means "raises".
* JSON documents are modelled by the inductive `Json`; Python `dict`s keep
  their keys unique and ordered, modelled as association lists.
-/

namespace DomSched

/-! ## Python string primitives -/

/-- Python `str.split(sep)` for a single-character separator: splits on every
occurrence, keeping empty pieces (`"a((b".split("(") == ["a","","b"]`). -/
def pySplitChar (sep : Char) : List Char → List (List Char)
  | [] => [[]]
  | c :: cs =>
    let rest := pySplitChar sep cs
    if c = sep then
      [] :: rest
    else
      match rest with
      | [] => [[c]]
      | piece :: pieces => (c :: piece) :: pieces

/-- Python `int(s)` on a decimal string: optional sign followed by at least
one digit (whitespace/underscore tolerance of CPython is not exercised by the
code's inputs and is not modelled). `none` models `ValueError`. -/
def pyToInt : List Char → Option Int
  | [] => none
  | '-' :: ds =>
    if ds ≠ [] ∧ ds.all Char.isDigit then
      some (-(ds.foldl (fun n d => 10 * n + (d.toNat - '0'.toNat)) 0 : Nat))
    else none
  | '+' :: ds =>
    if ds ≠ [] ∧ ds.all Char.isDigit then
      some ((ds.foldl (fun n d => 10 * n + (d.toNat - '0'.toNat)) 0 : Nat))
    else none
  | ds =>
    if ds.all Char.isDigit then
      some ((ds.foldl (fun n d => 10 * n + (d.toNat - '0'.toNat)) 0 : Nat))
    else none

/-- Python `s.startswith(p)`. -/
def pyStartsWith (s p : String) : Bool :=
  p.toList.isPrefixOf s.toList

/-- Python `s[n:]`. -/
def pyDrop (s : String) (n : Nat) : String :=
  ⟨s.toList.drop n⟩

/-- Python `s.upper()` (ASCII letters suffice for this code). -/
def pyUpper (s : String) : String :=
  ⟨s.toList.map Char.toUpper⟩

/-- Decidable equality for the `Except`-modelled fallible results. -/
instance {ε α : Type} [DecidableEq ε] [DecidableEq α] : DecidableEq (Except ε α) :=
  fun a b =>
    match a, b with
    | .ok x, .ok y =>
      match decEq x y with
      | isTrue h => isTrue (h ▸ rfl)
      | isFalse h => isFalse (fun e => h (by cases e; rfl))
    | .error x, .error y =>
      match decEq x y with
      | isTrue h => isTrue (h ▸ rfl)
      | isFalse h => isFalse (fun e => h (by cases e; rfl))
    | .ok _, .error _ => isFalse (fun e => by cases e)
    | .error _, .ok _ => isFalse (fun e => by cases e)

/-! ## Extractor: date handling

`datetime` values are epoch milliseconds; `msDay` is `.date()` as an epoch
day (floor division, as local-time calendar days are monotone in the
timestamp). -/

/-- Milliseconds per day. -/
def msPerDay : Int := 86400000

/-- The calendar date (as an epoch day) of an epoch-millisecond timestamp:
models `datetime.fromtimestamp(ms / 1000).date()`. -/
def msDay (ms : Int) : Int := Int.fdiv ms msPerDay

/-- `DominionEnergyExtractor.parse_date`: parses the Microsoft JSON date
format `/Date(timestamp)/`, returning the embedded epoch-millisecond count;
`none` models both the `null`-marker early return and the caught
`ValueError`/`IndexError` (logged, never raised). -/
def parse_date (date_str : String) : Option Int :=
  if date_str = "" ∨ date_str = "null" then
    none
  else
    match (pySplitChar '(' date_str.toList).drop 1 with
    | [] => none        -- IndexError on `split('(')[1]`: caught, returns None
    | piece :: _ =>
      match pySplitChar ')' piece with
      | [] => none      -- unreachable: split never returns an empty list
      | first :: _ => pyToInt first   -- ValueError: caught, returns None

/-! ## Extractor: raw upstream payload and normalization -/

/-- One raw upstream day record.  `Date` and `Designation` model
`day_data.get(...)` (`none` = key absent or JSON `null`).  `Day` models the
result of `int(day_data['Day'])`: `none` means the key is absent or its value
is not castable to `int`, in which case that cast raises. -/
structure RawDay where
  Date : Option String
  Day : Option Int
  Designation : Option String
deriving Repr, DecidableEq

/-- One raw upstream week record; `none` models a week with no `'Days'` key. -/
structure RawWeek where
  Days : Option (List RawDay)
deriving Repr, DecidableEq

/-- A raw upstream month payload; `none` models a payload with no `'Weeks'`
key. -/
structure RawData where
  Weeks : Option (List RawWeek)
deriving Repr, DecidableEq

/-- A normalized schedule entry as built by `extract_schedule_data`:
`date` is the epoch day behind the `'%Y-%m-%d'` string, `timestamp` the
epoch milliseconds behind the `isoformat` string. -/
structure Entry where
  date : Int
  day : Int
  designation : String
  timestamp : Int
deriving Repr, DecidableEq

/-- The date used when comparing an entry against the clock:
`datetime.fromisoformat(entry['timestamp']).date()`. -/
def entryDate (e : Entry) : Int := msDay e.timestamp

/-- Processing of one day record inside `extract_schedule_data`'s loop:
`ok none` = record skipped, `ok (some e)` = entry appended, `error` = the
`int(day_data['Day'])` cast raised out of the function. -/
def processDay (d : RawDay) : Except Unit (Option Entry) :=
  match d.Date with
  | none => Except.ok none                       -- `day_data.get('Date')` falsy
  | some s =>
    if s = "" ∨ s = "null" then Except.ok none   -- falsy or the "null" marker
    else
      match parse_date s with
      | none => Except.ok none                   -- `if not date_obj: continue`
      | some ms =>
        match d.Designation with
        | none => Except.ok none                 -- `designation` falsy
        | some desig =>
          if desig ≠ "" ∧ (desig = "A" ∨ desig = "B" ∨ desig = "C") then
            match d.Day with
            | some dayN =>
              Except.ok (some { date := msDay ms, day := dayN,
                                designation := desig, timestamp := ms })
            | none => Except.error ()            -- `int(day_data['Day'])` raises
          else Except.ok none

/-- The week/day loops of `extract_schedule_data`, accumulating entries in
payload order. -/
def collectDays : List RawDay → Except Unit (List Entry)
  | [] => Except.ok []
  | d :: ds =>
    match processDay d with
    | .error u => .error u
    | .ok e? =>
      match collectDays ds with
      | .error u => .error u
      | .ok rest =>
        match e? with
        | some e => .ok (e :: rest)
        | none => .ok rest

/-- Collects over all weeks, skipping weeks without a `'Days'` key
(`if 'Days' not in week: continue`). -/
def collectWeeks : List RawWeek → Except Unit (List Entry)
  | [] => Except.ok []
  | w :: ws =>
    match (match w.Days with
           | none => Except.ok ([] : List Entry)
           | some ds => collectDays ds) with
    | .error u => .error u
    | .ok first =>
      match collectWeeks ws with
      | .error u => .error u
      | .ok rest => .ok (first ++ rest)

/-- The sort order of `sorted(schedule, key=lambda x: x['date'])`. -/
def dateLE (a b : Entry) : Prop := a.date ≤ b.date

instance : DecidableRel dateLE := fun a b => inferInstanceAs (Decidable (a.date ≤ b.date))

instance : IsTotal Entry dateLE := ⟨fun a b => Int.le_total a.date b.date⟩

instance : IsTrans Entry dateLE := ⟨fun _ _ _ h h' => Int.le_trans h h'⟩

/-- `DominionEnergyExtractor.extract_schedule_data`: normalizes one raw month
payload into entries sorted ascending by date.  Python's `sorted` is a stable
sort by the date key, hence extensionally equal to the stable
`insertionSort`. -/
def extract_schedule_data (data : RawData) : Except Unit (List Entry) :=
  match data.Weeks with
  | none => Except.ok []                          -- `if 'Weeks' not in data`
  | some ws => do
    let schedule ← collectWeeks ws
    Except.ok (List.insertionSort dateLE schedule)

/-! ## Extractor: aggregation -/

/-- `DominionEnergyExtractor.get_next_designation`: first entry of the given
schedule whose date is on or after `today` (an epoch day); `none` when there
is none. -/
def get_next_designation (today : Int) (schedule : List Entry) : Option Entry :=
  schedule.find? (fun e => today ≤ entryDate e)

/-- The upcoming-window filter in `run` (lines 159–163): keeps the entries
with `now.date() <= entry_date <= end_date` where
`end_date = (now + timedelta(days=days_ahead)).date()`. -/
def upcomingSchedule (nowMs : Int) (daysAhead : Int) (schedule : List Entry) :
    List Entry :=
  schedule.filter (fun e =>
    msDay nowMs ≤ entryDate e ∧ entryDate e ≤ msDay (nowMs + daysAhead * msPerDay))

/-- The `summary` block of the payload built in `run`. -/
structure Summary where
  total_upcoming : Nat
  A_count : Nat
  B_count : Nat
  C_count : Nat
deriving Repr, DecidableEq

/-- The aggregated payload built in `run` (lines 172–182). -/
structure Payload where
  fetched_at : Int
  next_designation : Option Entry
  upcoming_schedule : List Entry
  summary : Summary
deriving Repr, DecidableEq

/-- Payload construction in `run` from the combined schedule (after the
optional next-month extension): lines 158–182 of the extractor. -/
def mkPayload (nowMs : Int) (daysAhead : Int) (schedule : List Entry) : Payload :=
  let upcoming := upcomingSchedule nowMs daysAhead schedule
  { fetched_at := nowMs
    next_designation := get_next_designation (msDay nowMs) schedule
    upcoming_schedule := upcoming
    summary :=
      { total_upcoming := upcoming.length
        A_count := upcoming.countP (fun e => e.designation = "A")
        B_count := upcoming.countP (fun e => e.designation = "B")
        C_count := upcoming.countP (fun e => e.designation = "C") } }

/-! ## API server: JSON values and Python dict/list semantics -/

/-- JSON documents, as manipulated by `api_server_with_get.py`.  Objects are
ordered association lists with unique keys, like Python dicts. -/
inductive Json where
  | null
  | bool (b : Bool)
  | int (n : Int)
  | str (s : String)
  | arr (xs : List Json)
  | obj (kvs : List (String × Json))
deriving Repr, Inhabited

/-- First value bound to a key in an association list (keys are unique). -/
def lookupKey (kvs : List (String × Json)) (k : String) : Option Json :=
  match kvs with
  | [] => none
  | (k', v) :: rest => if k' = k then some v else lookupKey rest k

/-- Python dict assignment `d[k] = v`: overwrites in place if the key exists,
otherwise appends. -/
def setKey (kvs : List (String × Json)) (k : String) (v : Json) :
    List (String × Json) :=
  match kvs with
  | [] => [(k, v)]
  | (k', v') :: rest =>
    if k' = k then (k, v) :: rest else (k', v') :: setKey rest k v

/-- Python truthiness of a JSON value. -/
def truthy : Json → Bool
  | .null => false
  | .bool b => b
  | .int n => n != 0
  | .str s => s ≠ ""
  | .arr xs => ¬xs.isEmpty
  | .obj kvs => ¬kvs.isEmpty

/-- Python `==` between a JSON value and a string literal. -/
def jsonEqStr (x : Json) (s : String) : Bool :=
  match x with
  | .str s' => s' = s
  | _ => false

/-- Python `k in data`: key membership for dicts, element membership for
lists, substring for strings; raises `TypeError` otherwise. -/
def pyIn (k : String) : Json → Except Unit Bool
  | .obj kvs => Except.ok (kvs.any (fun p => p.1 = k))
  | .arr xs => Except.ok (xs.any (fun x => jsonEqStr x k))
  | .str s => Except.ok (decide (k.toList <:+: s.toList))
  | _ => Except.error ()

/-- Python `data.get(k)`: `none` when the key is missing; raises
(`AttributeError`) when `data` is not a dict. -/
def pyDictGet (data : Json) (k : String) : Except Unit (Option Json) :=
  match data with
  | .obj kvs => Except.ok (lookupKey kvs k)
  | _ => Except.error ()

/-- Python `data[k]` with a string key: raises `KeyError` when missing and
`TypeError` when `data` is not a dict. -/
def pySubscript (data : Json) (k : String) : Except Unit Json :=
  match data with
  | .obj kvs =>
    match lookupKey kvs k with
    | some v => Except.ok v
    | none => Except.error ()
  | _ => Except.error ()

/-! ## API server: storage

The store state is the JSON document held in `DATA_FILE`.  `load_schedule`
returns that document (its `except` branch covers an unreadable file, an I/O
condition outside this state model); `save_schedule` stamps `received_at`
and overwrites the document wholesale. -/

/-- The sentinel written at module init when the data file does not exist. -/
def sentinel : Json :=
  .obj [("status", .str "no_data"), ("message", .str "Waiting for first update")]

/-- `load_schedule`: returns the stored document. -/
def load_schedule (store : Json) : Json := store

/-- `save_schedule(data)`: sets `data['received_at'] = datetime.now().isoformat()`
and writes the whole record.  On a non-dict payload the item assignment
raises `TypeError` (modelled as `error`); the write itself is atomic. -/
def save_schedule (data : Json) (nowIso : String) : Except Unit Json :=
  match data with
  | .obj kvs => Except.ok (.obj (setKey kvs "received_at" (.str nowIso)))
  | _ => Except.error ()

/-! ## API server: POST /dominion-schedule -/

/-- The required-field scan
`[field for field in required_fields if field not in data]`, in order;
`error` when a membership test raises (e.g. the body parsed to JSON `null`). -/
def missingFields (data : Json) : List String → Except Unit (List String)
  | [] => Except.ok []
  | f :: fs => do
    let present ← pyIn f data
    let rest ← missingFields data fs
    Except.ok (if present then rest else f :: rest)

/-- The fields `receive_schedule` requires. -/
def requiredFields : List String :=
  ["fetched_at", "next_designation", "upcoming_schedule", "summary"]

/-- Everything `receive_schedule` does after `save_schedule` succeeds, inside
the same `try`: the logging f-strings subscript `data['fetched_at']`,
`next_des['designation']`/`['date']` (when `next_des` is truthy) and the four
summary counters, and the 200 response subscripts `next_des` again; any raise
here is caught and turned into the 500 "Failed to save data" response, after
the store was already overwritten. -/
def postSaveResponse (data : Json) : Except Unit Json := do
  let next_des ← pySubscript data "next_designation"
  let summary ← pySubscript data "summary"
  let _ ← pySubscript data "fetched_at"
  if truthy next_des then
    let _ ← pySubscript next_des "designation"
    let _ ← pySubscript next_des "date"
  let _ ← pySubscript summary "total_upcoming"
  let _ ← pySubscript summary "A_count"
  let _ ← pySubscript summary "B_count"
  let _ ← pySubscript summary "C_count"
  let nd ← if truthy next_des then pySubscript next_des "designation"
           else Except.ok Json.null
  let ndate ← if truthy next_des then pySubscript next_des "date"
              else Except.ok Json.null
  Except.ok (.obj [("status", .str "success"),
                   ("message", .str "Schedule data received and stored"),
                   ("next_designation", nd), ("next_date", ndate)])

/-- `receive_schedule` (POST `/dominion-schedule`): returns the HTTP status,
the response document and the store state after the request.  `body = none`
models a request whose JSON parsing raised (caught: 400); an uncaught raise
in the field scan surfaces as the framework's own 500. -/
def receive_schedule (apiKey : String) (authHeader : Option String)
    (body : Option Json) (nowIso : String) (store : Json) :
    Nat × Json × Json :=
  let auth := authHeader.getD ""
  if ¬(pyStartsWith auth "Bearer ") ∨ pyDrop auth 7 ≠ apiKey then
    (401, .obj [("error", .str "Unauthorized"),
                ("message", .str "Invalid or missing API key")], store)
  else
    match body with
    | none => (400, .obj [("error", .str "Invalid JSON")], store)
    | some data =>
      match missingFields data requiredFields with
      | .error _ => (500, .obj [("error", .str "Internal Server Error")], store)
      | .ok missing =>
        if missing ≠ [] then
          (400, .obj [("error", .str "Missing required fields"),
                      ("missing", .arr (missing.map Json.str))], store)
        else
          match save_schedule data nowIso with
          | .error _ =>
            (500, .obj [("error", .str "Failed to save data")], store)
          | .ok store' =>
            match postSaveResponse data with
            | .error _ =>
              (500, .obj [("error", .str "Failed to save data")], store')
            | .ok resp => (200, resp, store')

/-! ## API server: GET endpoints

Each handler is a function of the loaded store document (plus any request
parameters and the clock); the result is the HTTP status with the response
document (`error` = an uncaught raise, surfaced as the framework's 500). -/

/-- `get_full_schedule` (GET `/dominion-schedule`, `/api/schedule`). -/
def get_full_schedule (data : Json) : Except Unit (Nat × Json) := do
  let hasErr ← pyIn "error" data
  if hasErr then Except.ok (500, data)
  else do
    let st ← pyDictGet data "status"
    if jsonEqStr (st.getD .null) "no_data" then Except.ok (404, data)
    else Except.ok (200, data)

/-- `get_next_designation` in the server (GET `/api/next`,
`/dominion-schedule/next`); named apart from the extractor method it shares
its Python name with. -/
def api_next (data : Json) : Except Unit (Nat × Json) := do
  let hasErr ← pyIn "error" data
  if hasErr then Except.ok (500, data)
  else do
    let st ← pyDictGet data "status"
    if jsonEqStr (st.getD .null) "no_data" then
      Except.ok (404, .obj [("error", .str "No data available")])
    else do
      let nd ← pyDictGet data "next_designation"
      let next_des := nd.getD .null
      if ¬truthy next_des then
        Except.ok (404, .obj [("error", .str "No upcoming designation found")])
      else do
        let desig ← pySubscript next_des "designation"
        let date ← pySubscript next_des "date"
        let day ← pySubscript next_des "day"
        let ts ← pySubscript next_des "timestamp"
        let fa ← pySubscript data "fetched_at"
        let ra ← pyDictGet data "received_at"
        Except.ok (200, .obj [("designation", desig), ("date", date),
          ("day", day), ("timestamp", ts), ("fetched_at", fa),
          ("received_at", ra.getD .null)])

/-- `get_designation_only` (GET `/api/designation`): plain-text body. -/
def get_designation_only (data : Json) : Except Unit (Nat × Json) := do
  let hasErr ← pyIn "error" data
  let noData ←
    if hasErr then Except.ok true
    else do
      let st ← pyDictGet data "status"
      Except.ok (jsonEqStr (st.getD .null) "no_data")
  if noData then Except.ok (404, .str "ERROR")
  else do
    let nd ← pyDictGet data "next_designation"
    let next_des := nd.getD .null
    if ¬truthy next_des then Except.ok (404, .str "NONE")
    else do
      let desig ← pySubscript next_des "designation"
      Except.ok (200, desig)

/-- The `for entry in upcoming` scan of `get_today_designation` looking for
an entry dated today. -/
def todayLoop (todayIso : String) : List Json → Except Unit (Nat × Json)
  | [] => Except.ok (404, .obj [("error", .str "No designation for today"),
      ("message",
       .str "Today might not have a designation or data needs update")])
  | e :: rest => do
    let d ← pySubscript e "date"
    if jsonEqStr d todayIso then do
      let desig ← pySubscript e "designation"
      let day ← pySubscript e "day"
      Except.ok (200, .obj [("date", d), ("designation", desig),
        ("day", day), ("is_today", .bool true)])
    else todayLoop todayIso rest

/-- `get_today_designation` (GET `/api/today`); `todayIso` is
`datetime.now().date().isoformat()`. -/
def get_today_designation (todayIso : String) (data : Json) :
    Except Unit (Nat × Json) := do
  let hasErr ← pyIn "error" data
  let noData ←
    if hasErr then Except.ok true
    else do
      let st ← pyDictGet data "status"
      Except.ok (jsonEqStr (st.getD .null) "no_data")
  if noData then Except.ok (404, .obj [("error", .str "No data available")])
  else do
    let up ← pyDictGet data "upcoming_schedule"
    match up.getD (.arr []) with
    | .arr entries => todayLoop todayIso entries
    | _ => Except.error ()    -- `for entry in upcoming` on a non-list

/-- The list comprehension
`[e for e in upcoming if e['designation'] == designation_filter]`. -/
def filterDesignation (df : String) : List Json → Except Unit (List Json)
  | [] => Except.ok []
  | e :: rest => do
    let d ← pySubscript e "designation"
    let tail ← filterDesignation df rest
    Except.ok (if jsonEqStr d df then e :: tail else tail)

/-- `get_upcoming_days` (GET `/api/upcoming?limit=N&designation=X`).
`limit` is `request.args.get('limit', type=int)` (`none` when absent or not
an integer); `desigParam` is `request.args.get('designation', '')`. -/
def get_upcoming_days (data : Json) (limit : Option Int) (desigParam : String) :
    Except Unit (Nat × Json) := do
  let hasErr ← pyIn "error" data
  let noData ←
    if hasErr then Except.ok true
    else do
      let st ← pyDictGet data "status"
      Except.ok (jsonEqStr (st.getD .null) "no_data")
  if noData then Except.ok (404, .obj [("error", .str "No data available")])
  else do
    let up ← pyDictGet data "upcoming_schedule"
    match up.getD (.arr []) with
    | .arr entries => do
      let df := pyUpper desigParam
      let filtered ←
        if df ≠ "" ∧ (df = "A" ∨ df = "B" ∨ df = "C") then
          filterDesignation df entries
        else Except.ok entries
      let limited :=
        match limit with
        | some n => if n != 0 ∧ 0 < n then filtered.take n.toNat else filtered
        | none => filtered
      Except.ok (200, .obj [("upcoming", .arr limited),
        ("count", .int limited.length),
        ("total_available", .int entries.length)])
    | _ => Except.error ()    -- iteration/`len` on a non-list value

/-- `get_summary` (GET `/api/summary`). -/
def get_summary (data : Json) : Except Unit (Nat × Json) := do
  let hasErr ← pyIn "error" data
  let noData ←
    if hasErr then Except.ok true
    else do
      let st ← pyDictGet data "status"
      Except.ok (jsonEqStr (st.getD .null) "no_data")
  if noData then Except.ok (404, .obj [("error", .str "No data available")])
  else do
    let summary := (← pyDictGet data "summary").getD (.obj [])
    let next_des := (← pyDictGet data "next_designation").getD (.obj [])
    let tu ← pyDictGet summary "total_upcoming"
    let ac ← pyDictGet summary "A_count"
    let bc ← pyDictGet summary "B_count"
    let cc ← pyDictGet summary "C_count"
    let nd ←
      if truthy next_des then do
        Except.ok ((← pyDictGet next_des "designation").getD .null)
      else Except.ok Json.null
    let ndate ←
      if truthy next_des then do
        Except.ok ((← pyDictGet next_des "date").getD .null)
      else Except.ok Json.null
    let fa ← pyDictGet data "fetched_at"
    let ra ← pyDictGet data "received_at"
    Except.ok (200, .obj [("total_upcoming", tu.getD (.int 0)),
      ("A_count", ac.getD (.int 0)), ("B_count", bc.getD (.int 0)),
      ("C_count", cc.getD (.int 0)), ("next_designation", nd),
      ("next_date", ndate), ("fetched_at", fa.getD .null),
      ("received_at", ra.getD .null)])

/-- `health_check` (GET `/health`); `nowIso` is
`datetime.now().isoformat()`. -/
def health_check (nowIso : String) (data : Json) :
    Except Unit (Nat × Json) := do
  let hasData ← pyIn "next_designation" data
  let lu ← pyDictGet data "received_at"
  Except.ok (200, .obj [("status", .str "healthy"),
    ("timestamp", .str nowIso), ("has_data", .bool hasData),
    ("last_update", lu.getD (.str "never"))])

/-- `index` (GET `/`): the static documentation document, always 200. -/
def index : Nat × Json :=
  (200, .obj [("name", .str "Dominion Energy Schedule API"),
    ("version", .str "1.0"),
    ("endpoints", .obj [
      ("GET /api/designation",
       .str "Returns just the letter (A, B, or C) - simplest"),
      ("GET /api/next", .str "Returns next designation with details"),
      ("GET /api/today", .str "Returns today's designation"),
      ("GET /api/upcoming",
       .str "Returns upcoming schedule (supports ?limit=N&designation=A)"),
      ("GET /api/summary", .str "Returns summary statistics"),
      ("GET /dominion-schedule", .str "Returns complete schedule data"),
      ("POST /dominion-schedule",
       .str "Receives data from extractor (requires API key)"),
      ("GET /health", .str "Health check")]),
    ("examples", .obj [
      ("Simple GET", .str "curl https://your-api.com/api/designation"),
      ("Next designation", .str "curl https://your-api.com/api/next"),
      ("Today only", .str "curl https://your-api.com/api/today"),
      ("Next 3 days", .str "curl https://your-api.com/api/upcoming?limit=3"),
      ("All A days",
       .str "curl https://your-api.com/api/upcoming?designation=A")])])

/-! ## Spec-side descriptions (for refinement statements)

These two definitions follow the specification's wording for
`GET /api/upcoming` — "applies optional designation-letter filter then
optional positive integer limit (truncate to first N), preserving order" —
to be compared with the handler `get_upcoming_days` embedded from the
source. -/

/-- Spec wording: the optional designation-letter filter, preserving order;
applied only when the (upper-cased) parameter is one of the three letters. -/
def specDesignationFilter (df : String) (entries : List Json) : List Json :=
  if df = "A" ∨ df = "B" ∨ df = "C" then
    entries.filter (fun e =>
      match pySubscript e "designation" with
      | .ok v => jsonEqStr v df
      | .error _ => false)
  else entries

/-- Spec wording: the optional positive integer limit, truncating to the
first N entries. -/
def specLimit (limit : Option Int) (l : List Json) : List Json :=
  match limit with
  | some n => if 0 < n then l.take n.toNat else l
  | none => l

/-! ## Theorems -/

/-- C1: on any date-sorted combined schedule (entries' `date` field matching
their timestamp's calendar date, as the normalizer guarantees),
`get_next_designation` returns `none` exactly when no entry's date is on or
after `now`'s date, and otherwise returns an entry of the schedule whose date
is on or after `now`'s date and minimal among all such entries. -/
theorem next_designation_spec (today : Int) (schedule : List Entry)
    (hs : schedule.Sorted dateLE)
    (hd : ∀ e ∈ schedule, e.date = entryDate e) :
    (get_next_designation today schedule = none ↔
      ∀ e ∈ schedule, entryDate e < today) ∧
    (∀ e, get_next_designation today schedule = some e →
      e ∈ schedule ∧ today ≤ entryDate e ∧
      ∀ e' ∈ schedule, today ≤ entryDate e' → entryDate e ≤ entryDate e') := by
  induction schedule with
  | nil => simp [get_next_designation]
  | cons a l ih =>
    rw [List.sorted_cons] at hs
    obtain ⟨ha, hl⟩ := hs
    have hd' : ∀ e ∈ l, e.date = entryDate e :=
      fun e he => hd e (List.mem_cons_of_mem a he)
    obtain ⟨ihnone, ihsome⟩ := ih hl hd'
    by_cases hpa : today ≤ entryDate a
    · have hfind : get_next_designation today (a :: l) = some a := by
        simp [get_next_designation, List.find?_cons, hpa]
      refine ⟨?_, ?_⟩
      · rw [hfind]
        simp only [reduceCtorEq, false_iff, not_forall]
        exact ⟨a, List.mem_cons_self a l, not_lt.mpr hpa⟩
      · intro e he
        rw [hfind, Option.some_inj] at he
        subst he
        refine ⟨List.mem_cons_self a l, hpa, ?_⟩
        intro e' he' _
        rcases List.mem_cons.mp he' with h | h
        · subst h; exact le_refl _
        · have := ha e' h
          unfold dateLE at this
          rw [hd a (List.mem_cons_self a l), hd e' (List.mem_cons_of_mem a h)] at this
          exact this
    · have hfind : get_next_designation today (a :: l) =
          get_next_designation today l := by
        simp [get_next_designation, List.find?_cons, hpa]
      refine ⟨?_, ?_⟩
      · rw [hfind, ihnone]
        constructor
        · intro h e he
          rcases List.mem_cons.mp he with h' | h'
          · subst h'; exact lt_of_not_le hpa
          · exact h e h'
        · intro h e he
          exact h e (List.mem_cons_of_mem a he)
      · intro e he
        rw [hfind] at he
        obtain ⟨hmem, hge, hmin⟩ := ihsome e he
        refine ⟨List.mem_cons_of_mem a hmem, hge, ?_⟩
        intro e' he' hge'
        rcases List.mem_cons.mp he' with h | h
        · subst h; exact absurd hge' hpa
        · exact hmin e' h hge'

/-- Witness for C1 at `today = 5` on a concrete sorted three-entry schedule:
the returned next designation is the middle entry, dated `6 ≥ 5`. -/
theorem next_designation_witness :
    (get_next_designation 5
        [⟨3, 4, "A", 259200000⟩, ⟨6, 7, "B", 518400000⟩, ⟨9, 10, "C", 777600000⟩]
        = none ↔
      ∀ e ∈ [⟨3, 4, "A", 259200000⟩, ⟨6, 7, "B", 518400000⟩,
             (⟨9, 10, "C", 777600000⟩ : Entry)], entryDate e < 5) ∧
    (∀ e, get_next_designation 5
        [⟨3, 4, "A", 259200000⟩, ⟨6, 7, "B", 518400000⟩, ⟨9, 10, "C", 777600000⟩]
        = some e →
      e ∈ [⟨3, 4, "A", 259200000⟩, ⟨6, 7, "B", 518400000⟩,
           (⟨9, 10, "C", 777600000⟩ : Entry)] ∧ 5 ≤ entryDate e ∧
      ∀ e' ∈ [⟨3, 4, "A", 259200000⟩, ⟨6, 7, "B", 518400000⟩,
              (⟨9, 10, "C", 777600000⟩ : Entry)],
        5 ≤ entryDate e' → entryDate e ≤ entryDate e') :=
  next_designation_spec 5 _ (by decide) (by decide)

/-- C2 (amended): on a date-sorted normalized schedule, the upcoming window
keeps ascending date order and contains exactly the entries whose date lies
in the closed interval from `now`'s date to `(now + N days)`'s date.  (The
"no duplicate dates" part of the original claim fails: the window performs no
deduplication — see `upcoming_schedule_duplicate_dates`.) -/
theorem upcoming_schedule_spec (nowMs daysAhead : Int) (schedule : List Entry)
    (hs : schedule.Sorted dateLE) :
    (upcomingSchedule nowMs daysAhead schedule).Sorted dateLE ∧
    ∀ e, e ∈ upcomingSchedule nowMs daysAhead schedule ↔
      (e ∈ schedule ∧ msDay nowMs ≤ entryDate e ∧
       entryDate e ≤ msDay (nowMs + daysAhead * msPerDay)) := by
  constructor
  · exact List.Pairwise.filter _ hs
  · intro e
    simp [upcomingSchedule, List.mem_filter]

/-- Witness for C2 at `now = 0`, a 2-day window and a concrete sorted
schedule straddling the window. -/
theorem upcoming_schedule_witness :
    (upcomingSchedule 0 2
        [⟨-1, 31, "A", -86400000⟩, ⟨1, 2, "B", 86400000⟩,
         ⟨5, 6, "C", 432000000⟩]).Sorted dateLE ∧
    ∀ e, e ∈ upcomingSchedule 0 2
        [⟨-1, 31, "A", -86400000⟩, ⟨1, 2, "B", 86400000⟩,
         ⟨5, 6, "C", 432000000⟩] ↔
      (e ∈ [⟨-1, 31, "A", -86400000⟩, ⟨1, 2, "B", 86400000⟩,
            (⟨5, 6, "C", 432000000⟩ : Entry)] ∧ msDay 0 ≤ entryDate e ∧
       entryDate e ≤ msDay (0 + 2 * msPerDay)) :=
  upcoming_schedule_spec 0 2 _ (by decide)

/-- Counterexample to C2 as stated: a raw month payload carrying two
well-formed records for the same calendar date normalizes (the normalizer
performs no deduplication) and both land in the upcoming window, so the
window holds two entries with the same date. -/
theorem upcoming_schedule_duplicate_dates :
    extract_schedule_data
      { Weeks := some [{ Days := some [
          { Date := some "/Date(0)/", Day := some 1, Designation := some "A" },
          { Date := some "/Date(1000)/", Day := some 1,
            Designation := some "B" }] }] }
      = .ok [⟨0, 1, "A", 0⟩, ⟨0, 1, "B", 1000⟩] ∧
    upcomingSchedule 0 7 [⟨0, 1, "A", 0⟩, ⟨0, 1, "B", 1000⟩]
      = [⟨0, 1, "A", 0⟩, ⟨0, 1, "B", 1000⟩] ∧
    ¬ List.Pairwise (fun a b => entryDate a ≠ entryDate b)
        [(⟨0, 1, "A", 0⟩ : Entry), ⟨0, 1, "B", 1000⟩] := by
  refine ⟨rfl, by decide, ?_⟩
  intro h
  exact (List.pairwise_cons.mp h).1 ⟨0, 1, "B", 1000⟩
    (List.mem_cons_self _ _) rfl

/-- An entry emitted for a day record always carries one of the three valid
designations. -/
theorem processDay_designation {d : RawDay} {e : Entry}
    (hpd : processDay d = .ok (some e)) :
    e.designation = "A" ∨ e.designation = "B" ∨ e.designation = "C" := by
  unfold processDay at hpd
  rcases d with ⟨dt, dy, dg⟩
  cases dt with
  | none => simp at hpd
  | some s =>
    by_cases hnull : s = "" ∨ s = "null"
    · simp [hnull] at hpd
    · simp only [if_neg hnull] at hpd
      cases hp : parse_date s with
      | none => rw [hp] at hpd; simp at hpd
      | some ms =>
        rw [hp] at hpd
        cases dg with
        | none => simp at hpd
        | some desig =>
          by_cases hd : desig ≠ "" ∧ (desig = "A" ∨ desig = "B" ∨ desig = "C")
          · simp only [if_pos hd] at hpd
            cases dy with
            | none => simp at hpd
            | some dayN =>
              simp only [Except.ok.injEq, Option.some.injEq] at hpd
              rw [← hpd]
              exact hd.2
          · simp [if_neg hd] at hpd

/-- If no day record of the list makes the `int(day['Day'])` cast raise, the
day loop succeeds and collects exactly the entries of the well-formed
records. -/
theorem collectDays_ok (ds : List RawDay)
    (h : ∀ d ∈ ds, processDay d ≠ .error ()) :
    ∃ l, collectDays ds = .ok l ∧
      ∀ e, e ∈ l ↔ ∃ d ∈ ds, processDay d = .ok (some e) := by
  induction ds with
  | nil => exact ⟨[], rfl, by simp⟩
  | cons d ds ih =>
    obtain ⟨l, hl, hmem⟩ := ih (fun d' hd' => h d' (List.mem_cons_of_mem d hd'))
    cases hpd : processDay d with
    | error u => cases u; exact absurd hpd (h d (List.mem_cons_self d ds))
    | ok e? =>
      cases e? with
      | none =>
        refine ⟨l, ?_, ?_⟩
        · simp [collectDays, hpd, hl]
        · intro e
          rw [hmem e]
          constructor
          · rintro ⟨d', hd', hpd'⟩
            exact ⟨d', List.mem_cons_of_mem d hd', hpd'⟩
          · rintro ⟨d', hd', hpd'⟩
            rcases List.mem_cons.mp hd' with h' | h'
            · subst h'; rw [hpd] at hpd'; simp at hpd'
            · exact ⟨d', h', hpd'⟩
      | some e0 =>
        refine ⟨e0 :: l, ?_, ?_⟩
        · simp [collectDays, hpd, hl]
        · intro e
          constructor
          · intro h'
            rcases List.mem_cons.mp h' with h' | h'
            · subst h'; exact ⟨d, List.mem_cons_self d ds, hpd⟩
            · obtain ⟨d', hd', hpd'⟩ := (hmem e).mp h'
              exact ⟨d', List.mem_cons_of_mem d hd', hpd'⟩
          · rintro ⟨d', hd', hpd'⟩
            rcases List.mem_cons.mp hd' with h' | h'
            · subst h'; rw [hpd] at hpd'
              simp only [Except.ok.injEq, Option.some.injEq] at hpd'
              exact hpd' ▸ List.mem_cons_self e0 l
            · exact List.mem_cons_of_mem e0 ((hmem e).mpr ⟨d', h', hpd'⟩)

/-- Same, over all weeks: weeks without a `'Days'` key contribute nothing. -/
theorem collectWeeks_ok (ws : List RawWeek)
    (h : ∀ w ∈ ws, ∀ d ∈ w.Days.getD [], processDay d ≠ .error ()) :
    ∃ l, collectWeeks ws = .ok l ∧
      ∀ e, e ∈ l ↔
        ∃ w ∈ ws, ∃ d ∈ w.Days.getD [], processDay d = .ok (some e) := by
  induction ws with
  | nil => exact ⟨[], rfl, by simp⟩
  | cons w ws ih =>
    obtain ⟨l, hl, hmem⟩ := ih (fun w' hw' => h w' (List.mem_cons_of_mem w hw'))
    have hfirst : ∃ f, (match w.Days with
        | none => Except.ok ([] : List Entry)
        | some ds => collectDays ds) = .ok f ∧
        ∀ e, e ∈ f ↔ ∃ d ∈ w.Days.getD [], processDay d = .ok (some e) := by
      cases hwd : w.Days with
      | none => exact ⟨[], rfl, by simp⟩
      | some ds =>
        have := h w (List.mem_cons_self w ws)
        rw [hwd] at this
        obtain ⟨f, hf, hfm⟩ := collectDays_ok ds this
        exact ⟨f, hf, by simpa using hfm⟩
    obtain ⟨f, hf, hfm⟩ := hfirst
    refine ⟨f ++ l, ?_, ?_⟩
    · simp [collectWeeks, hf, hl]
    · intro e
      simp only [List.mem_append, hfm e, hmem e, List.mem_cons]
      constructor
      · rintro (⟨d, hd, hpd⟩ | ⟨w', hw', hrest⟩)
        · exact ⟨w, Or.inl rfl, d, hd, hpd⟩
        · exact ⟨w', Or.inr hw', hrest⟩
      · rintro ⟨w', hw' | hw', hrest⟩
        · subst hw'; exact Or.inl hrest
        · exact Or.inr ⟨w', hw', hrest⟩

/-- C3 (amended): the normalizer succeeds on every payload in which no
well-dated, well-designated record lacks an integer `Day` (malformed dates
and designations are silently dropped, the output may be empty), and its
output is sorted ascending by date, carries only designations in {A,B,C},
and consists exactly of the entries of the well-formed records.  (As
originally stated — a total function on all payloads — the claim fails:
see `extract_schedule_data_raises`.) -/
theorem extract_schedule_data_spec (data : RawData)
    (h : ∀ w ∈ data.Weeks.getD [], ∀ d ∈ w.Days.getD [],
      processDay d ≠ .error ()) :
    ∃ l, extract_schedule_data data = .ok l ∧
      l.Sorted dateLE ∧
      (∀ e ∈ l, e.designation = "A" ∨ e.designation = "B" ∨
        e.designation = "C") ∧
      ∀ e : Entry, e ∈ l ↔
        ∃ w ∈ data.Weeks.getD [], ∃ d ∈ w.Days.getD [],
          processDay d = .ok (some e) := by
  cases hw : data.Weeks with
  | none =>
    refine ⟨[], ?_, List.sorted_nil, by simp, ?_⟩
    · simp [extract_schedule_data, hw]
    · intro e; simp
  | some ws =>
    rw [hw] at h
    obtain ⟨l, hl, hmem⟩ := collectWeeks_ok ws (by simpa using h)
    refine ⟨List.insertionSort dateLE l, ?_, ?_, ?_, ?_⟩
    · simp only [extract_schedule_data, hw, hl]; rfl
    · exact List.sorted_insertionSort dateLE l
    · intro e he
      have : e ∈ l := (List.perm_insertionSort dateLE l).mem_iff.mp he
      obtain ⟨w', _, d, _, hpd⟩ := (hmem e).mp this
      exact processDay_designation hpd
    · intro e
      rw [(List.perm_insertionSort dateLE l).mem_iff, hmem e]
      simp

/-- Witness for C3 on a concrete two-week payload mixing an unparseable
date, a `"null"` date, an invalid designation, a missing designation and two
valid records arriving date-reversed. -/
theorem extract_schedule_data_witness :
    ∃ l, extract_schedule_data
      { Weeks := some [
          { Days := some [
              { Date := some "/Date(172800000)/", Day := some 3,
                Designation := some "C" },
              { Date := some "garbage", Day := none, Designation := some "A" },
              { Date := some "null", Day := none, Designation := some "B" }] },
          { Days := some [
              { Date := some "/Date(0)/", Day := some 1,
                Designation := some "A" },
              { Date := some "/Date(86400000)/", Day := some 2,
                Designation := some "D" },
              { Date := some "/Date(86400000)/", Day := some 2,
                Designation := none }] }] }
      = .ok l ∧
      l.Sorted dateLE ∧
      (∀ e ∈ l, e.designation = "A" ∨ e.designation = "B" ∨
        e.designation = "C") ∧
      ∀ e : Entry, e ∈ l ↔
        ∃ w ∈ ({ Weeks := some [
          { Days := some [
              { Date := some "/Date(172800000)/", Day := some 3,
                Designation := some "C" },
              { Date := some "garbage", Day := none, Designation := some "A" },
              { Date := some "null", Day := none, Designation := some "B" }] },
          { Days := some [
              { Date := some "/Date(0)/", Day := some 1,
                Designation := some "A" },
              { Date := some "/Date(86400000)/", Day := some 2,
                Designation := some "D" },
              { Date := some "/Date(86400000)/", Day := some 2,
                Designation := none }] }] } : RawData).Weeks.getD [],
          ∃ d ∈ w.Days.getD [], processDay d = .ok (some e) :=
  extract_schedule_data_spec _ (by decide)

/-- Counterexample to C3 as stated: the normalizer is not total.  A record
with a parseable date and a valid designation but no `Day` field makes
`int(day_data['Day'])` raise out of `extract_schedule_data` instead of being
dropped. -/
theorem extract_schedule_data_raises :
    extract_schedule_data
      { Weeks := some [{ Days := some [
          { Date := some "/Date(0)/", Day := none,
            Designation := some "A" }] }] }
      = .error () := rfl

/-- Per-letter counts of a list whose designations all lie in {A,B,C} sum to
its length. -/
theorem countP_designations (l : List Entry)
    (h : ∀ e ∈ l, e.designation = "A" ∨ e.designation = "B" ∨
      e.designation = "C") :
    l.countP (fun e => e.designation = "A")
      + l.countP (fun e => e.designation = "B")
      + l.countP (fun e => e.designation = "C") = l.length := by
  induction l with
  | nil => simp
  | cons a l ih =>
    have ha := h a (List.mem_cons_self a l)
    have ih' := ih (fun e he => h e (List.mem_cons_of_mem a he))
    rcases ha with ha | ha | ha <;>
      simp [List.countP_cons, ha] <;> omega

/-- C4: whenever the combined schedule carries only designations in {A,B,C}
(as every normalizer output does), the aggregated payload satisfies
`A_count + B_count + C_count = total_upcoming = len(upcoming_schedule)` and
each per-letter count is the number of upcoming entries with exactly that
designation. -/
theorem summary_invariant (nowMs daysAhead : Int) (schedule : List Entry)
    (h : ∀ e ∈ schedule, e.designation = "A" ∨ e.designation = "B" ∨
      e.designation = "C") :
    (mkPayload nowMs daysAhead schedule).summary.A_count
        + (mkPayload nowMs daysAhead schedule).summary.B_count
        + (mkPayload nowMs daysAhead schedule).summary.C_count
      = (mkPayload nowMs daysAhead schedule).summary.total_upcoming ∧
    (mkPayload nowMs daysAhead schedule).summary.total_upcoming
      = (mkPayload nowMs daysAhead schedule).upcoming_schedule.length ∧
    (mkPayload nowMs daysAhead schedule).summary.A_count
      = (mkPayload nowMs daysAhead schedule).upcoming_schedule.countP
          (fun e => e.designation = "A") ∧
    (mkPayload nowMs daysAhead schedule).summary.B_count
      = (mkPayload nowMs daysAhead schedule).upcoming_schedule.countP
          (fun e => e.designation = "B") ∧
    (mkPayload nowMs daysAhead schedule).summary.C_count
      = (mkPayload nowMs daysAhead schedule).upcoming_schedule.countP
          (fun e => e.designation = "C") := by
  have hsub : ∀ e ∈ upcomingSchedule nowMs daysAhead schedule,
      e.designation = "A" ∨ e.designation = "B" ∨ e.designation = "C" := by
    intro e he
    exact h e (List.mem_filter.mp he).1
  refine ⟨?_, rfl, rfl, rfl, rfl⟩
  simpa [mkPayload] using
    countP_designations (upcomingSchedule nowMs daysAhead schedule) hsub

/-- Witness for C4 on a concrete all-valid schedule (two A's, one B inside a
7-day window, one C outside it). -/
theorem summary_invariant_witness :
    (mkPayload 0 7 [⟨0, 1, "A", 0⟩, ⟨1, 2, "B", 86400000⟩,
        ⟨2, 3, "A", 172800000⟩, ⟨30, 31, "C", 2592000000⟩]).summary.A_count
        + (mkPayload 0 7 [⟨0, 1, "A", 0⟩, ⟨1, 2, "B", 86400000⟩,
        ⟨2, 3, "A", 172800000⟩, ⟨30, 31, "C", 2592000000⟩]).summary.B_count
        + (mkPayload 0 7 [⟨0, 1, "A", 0⟩, ⟨1, 2, "B", 86400000⟩,
        ⟨2, 3, "A", 172800000⟩, ⟨30, 31, "C", 2592000000⟩]).summary.C_count
      = (mkPayload 0 7 [⟨0, 1, "A", 0⟩, ⟨1, 2, "B", 86400000⟩,
        ⟨2, 3, "A", 172800000⟩,
        ⟨30, 31, "C", 2592000000⟩]).summary.total_upcoming ∧
    (mkPayload 0 7 [⟨0, 1, "A", 0⟩, ⟨1, 2, "B", 86400000⟩,
        ⟨2, 3, "A", 172800000⟩,
        ⟨30, 31, "C", 2592000000⟩]).summary.total_upcoming
      = (mkPayload 0 7 [⟨0, 1, "A", 0⟩, ⟨1, 2, "B", 86400000⟩,
        ⟨2, 3, "A", 172800000⟩,
        ⟨30, 31, "C", 2592000000⟩]).upcoming_schedule.length ∧
    (mkPayload 0 7 [⟨0, 1, "A", 0⟩, ⟨1, 2, "B", 86400000⟩,
        ⟨2, 3, "A", 172800000⟩, ⟨30, 31, "C", 2592000000⟩]).summary.A_count
      = (mkPayload 0 7 [⟨0, 1, "A", 0⟩, ⟨1, 2, "B", 86400000⟩,
        ⟨2, 3, "A", 172800000⟩,
        ⟨30, 31, "C", 2592000000⟩]).upcoming_schedule.countP
          (fun e => e.designation = "A") ∧
    (mkPayload 0 7 [⟨0, 1, "A", 0⟩, ⟨1, 2, "B", 86400000⟩,
        ⟨2, 3, "A", 172800000⟩, ⟨30, 31, "C", 2592000000⟩]).summary.B_count
      = (mkPayload 0 7 [⟨0, 1, "A", 0⟩, ⟨1, 2, "B", 86400000⟩,
        ⟨2, 3, "A", 172800000⟩,
        ⟨30, 31, "C", 2592000000⟩]).upcoming_schedule.countP
          (fun e => e.designation = "B") ∧
    (mkPayload 0 7 [⟨0, 1, "A", 0⟩, ⟨1, 2, "B", 86400000⟩,
        ⟨2, 3, "A", 172800000⟩, ⟨30, 31, "C", 2592000000⟩]).summary.C_count
      = (mkPayload 0 7 [⟨0, 1, "A", 0⟩, ⟨1, 2, "B", 86400000⟩,
        ⟨2, 3, "A", 172800000⟩,
        ⟨30, 31, "C", 2592000000⟩]).upcoming_schedule.countP
          (fun e => e.designation = "C") :=
  summary_invariant 0 7 _ (by decide)

/-- C5 (amended): while the store still holds the "no data yet" sentinel,
every endpoint that reads the store except `GET /health` answers 404
(whatever the request parameters or the clock); `GET /health` answers 200
with `has_data: false`; the static `GET /` documentation endpoint, which does
not read the store, answers 200.  (As originally stated — every read
endpoint except `/health` returns 404 — the claim fails on `GET /`: see
`index_not_404_on_sentinel`.) -/
theorem sentinel_reads_404 :
    get_full_schedule (load_schedule sentinel) = .ok (404, sentinel) ∧
    api_next (load_schedule sentinel)
      = .ok (404, .obj [("error", .str "No data available")]) ∧
    get_designation_only (load_schedule sentinel)
      = .ok (404, .str "ERROR") ∧
    (∀ todayIso, get_today_designation todayIso (load_schedule sentinel)
      = .ok (404, .obj [("error", .str "No data available")])) ∧
    (∀ limit desigParam,
      get_upcoming_days (load_schedule sentinel) limit desigParam
        = .ok (404, .obj [("error", .str "No data available")])) ∧
    get_summary (load_schedule sentinel)
      = .ok (404, .obj [("error", .str "No data available")]) ∧
    (∀ nowIso, health_check nowIso (load_schedule sentinel)
      = .ok (200, .obj [("status", .str "healthy"),
          ("timestamp", .str nowIso), ("has_data", .bool false),
          ("last_update", .str "never")])) ∧
    index.1 = 200 :=
  ⟨rfl, rfl, rfl, fun _ => rfl, fun _ _ => rfl, rfl, fun _ => rfl, rfl⟩

/-- Counterexample to C5 as stated: with the sentinel in the store, the read
endpoint `GET /` answers 200, not 404 (it serves static documentation and
never consults the store). -/
theorem index_not_404_on_sentinel :
    load_schedule sentinel = sentinel ∧ index.1 = 200 ∧ index.1 ≠ 404 := by
  refine ⟨rfl, rfl, ?_⟩
  decide

/-- The bearer check of `receive_schedule` passes exactly for the header
value `Bearer <API_KEY>`: `startswith('Bearer ')` plus equality of the
remainder is equality with the concatenation. -/
theorem auth_exact (a key : String) :
    (pyStartsWith a "Bearer " = true ∧ pyDrop a 7 = key) ↔
      a = "Bearer " ++ key := by
  constructor
  · rintro ⟨h1, h2⟩
    have h1' : "Bearer ".toList.isPrefixOf a.toList = true := h1
    obtain ⟨t, ht⟩ := List.isPrefixOf_iff_prefix.mp h1'
    have h7 : ("Bearer ".toList).length = 7 := rfl
    have hdrop : pyDrop a 7 = ⟨t⟩ := by
      unfold pyDrop
      congr 1
      rw [← ht, ← h7, List.drop_left]
    rw [hdrop] at h2
    have ht' : t = key.data := congrArg String.data h2
    apply String.ext
    have htd : "Bearer ".data ++ t = a.data := ht
    rw [String.data_append, ← htd, ht']
  · rintro rfl
    have hd : ("Bearer " ++ key).toList = "Bearer ".toList ++ key.toList :=
      String.data_append _ _
    refine ⟨?_, ?_⟩
    · show "Bearer ".toList.isPrefixOf ("Bearer " ++ key).toList = true
      rw [hd]
      exact List.isPrefixOf_iff_prefix.mpr (List.prefix_append _ _)
    · unfold pyDrop
      apply String.ext
      show (("Bearer " ++ key).toList.drop 7) = key.data
      have h7 : ("Bearer ".toList).length = 7 := rfl
      rw [hd, ← h7, List.drop_left]
      rfl

/-- Reduction of a successful step in the `Except`-modelled control flow. -/
theorem ok_bind {α β : Type} (a : α) (f : α → Except Unit β) :
    (Except.ok a >>= f : Except Unit β) = f a := rfl

/-- The field scan on a JSON-object body never raises and returns the
required fields absent from the body, in the required order. -/
theorem missingFields_obj (kvs : List (String × Json)) (fs : List String) :
    missingFields (.obj kvs) fs
      = .ok (fs.filter (fun f => !(kvs.any (fun p => p.1 = f)))) := by
  induction fs with
  | nil => rfl
  | cons f fs ih =>
    cases hany : kvs.any (fun p => p.1 = f) <;>
      simp [missingFields, pyIn, hany, ih, List.filter_cons, ok_bind]

/-- C8: any POST to `/dominion-schedule` whose Authorization header is not
exactly `Bearer <API_KEY>` — missing header, wrong scheme, or wrong token —
is answered 401 and leaves the store untouched; only the exact header
proceeds past the check. -/
theorem receive_unauthorized (apiKey nowIso : String)
    (authHeader : Option String) (body : Option Json) (store : Json)
    (h : authHeader.getD "" ≠ "Bearer " ++ apiKey) :
    receive_schedule apiKey authHeader body nowIso store
      = (401, .obj [("error", .str "Unauthorized"),
          ("message", .str "Invalid or missing API key")], store) := by
  have hcond : ¬ (pyStartsWith (authHeader.getD "") "Bearer " = true) ∨
      pyDrop (authHeader.getD "") 7 ≠ apiKey := by
    by_contra hcon
    push_neg at hcon
    exact h ((auth_exact _ _).mp ⟨hcon.1, hcon.2⟩)
  unfold receive_schedule
  rw [if_pos hcond]

/-- Witness for C8: a token differing from the configured key is rejected
with 401 and the sentinel store is unchanged. -/
theorem receive_unauthorized_witness :
    receive_schedule "RicService" (some "Bearer Ric") none
      "2026-01-27T18:00:05" sentinel
      = (401, .obj [("error", .str "Unauthorized"),
          ("message", .str "Invalid or missing API key")], sentinel) :=
  receive_unauthorized "RicService" "2026-01-27T18:00:05" (some "Bearer Ric")
    none sentinel (by decide)

/-- C7: an authorized POST whose JSON-object body lacks one or more of the
four required fields is answered 400 carrying exactly the list of missing
field names (in the required order), and the store is untouched. -/
theorem receive_missing_fields (apiKey nowIso : String)
    (kvs : List (String × Json)) (store : Json)
    (hmiss : requiredFields.filter (fun f => !(kvs.any (fun p => p.1 = f)))
      ≠ []) :
    receive_schedule apiKey (some ("Bearer " ++ apiKey)) (some (.obj kvs))
      nowIso store
      = (400, .obj [("error", .str "Missing required fields"),
          ("missing", .arr ((requiredFields.filter
            (fun f => !(kvs.any (fun p => p.1 = f)))).map Json.str))],
         store) := by
  have hauth := (auth_exact ("Bearer " ++ apiKey) apiKey).mpr rfl
  simp [receive_schedule, hauth.1, hauth.2, missingFields_obj, hmiss]

/-- Witness for C7: an authorized body carrying all required fields but
`summary` is rejected with 400, `missing = ["summary"]`, store unchanged. -/
theorem receive_missing_fields_witness :
    receive_schedule "RicService"
      (some ("Bearer " ++ "RicService"))
      (some (.obj [("fetched_at", .str "2026-01-27T18:00:00"),
        ("next_designation", .null), ("upcoming_schedule", .arr [])]))
      "2026-01-27T18:00:05" sentinel
      = (400, .obj [("error", .str "Missing required fields"),
          ("missing", .arr ((requiredFields.filter
            (fun f => !(([("fetched_at", Json.str "2026-01-27T18:00:00"),
              ("next_designation", Json.null),
              ("upcoming_schedule", Json.arr [])]).any
                (fun p => p.1 = f)))).map Json.str))],
         sentinel) :=
  receive_missing_fields "RicService" "2026-01-27T18:00:05"
    [("fetched_at", .str "2026-01-27T18:00:00"), ("next_designation", .null),
     ("upcoming_schedule", .arr [])] sentinel (by decide)

/-- C6: an authorized POST whose body has all four required fields, with
`next_designation` a non-empty object lacking the `designation` key, is
answered 500 ("Failed to save data") even though `save_schedule` has already
overwritten the store: the logging line subscripts
`next_des['designation']` after the save, raising inside the same `try`.  A
500 from the write endpoint therefore does not imply the persisted state is
unchanged. -/
theorem receive_500_after_overwrite :
    receive_schedule "RicService" (some "Bearer RicService")
      (some (.obj [("fetched_at", .str "2026-01-27T18:00:00"),
        ("next_designation", .obj [("note", .null)]),
        ("upcoming_schedule", .arr []),
        ("summary", .obj [("total_upcoming", .int 0), ("A_count", .int 0),
          ("B_count", .int 0), ("C_count", .int 0)])]))
      "2026-01-27T18:00:05" sentinel
      = (500, .obj [("error", .str "Failed to save data")],
         .obj [("fetched_at", .str "2026-01-27T18:00:00"),
           ("next_designation", .obj [("note", .null)]),
           ("upcoming_schedule", .arr []),
           ("summary", .obj [("total_upcoming", .int 0), ("A_count", .int 0),
             ("B_count", .int 0), ("C_count", .int 0)]),
           ("received_at", .str "2026-01-27T18:00:05")]) ∧
    (Json.obj [("fetched_at", .str "2026-01-27T18:00:00"),
       ("next_designation", .obj [("note", .null)]),
       ("upcoming_schedule", .arr []),
       ("summary", .obj [("total_upcoming", .int 0), ("A_count", .int 0),
         ("B_count", .int 0), ("C_count", .int 0)]),
       ("received_at", .str "2026-01-27T18:00:05")]) ≠ sentinel := by
  refine ⟨rfl, ?_⟩
  simp [sentinel]

/-- The filter comprehension of `get_upcoming_days` never raises when every
entry is an object carrying a `designation` key, and equals the order-
preserving list filter. -/
theorem filterDesignation_ok (df : String) (entries : List Json)
    (h : ∀ e ∈ entries, ∃ v, pySubscript e "designation" = .ok v) :
    filterDesignation df entries
      = .ok (entries.filter (fun e =>
          match pySubscript e "designation" with
          | .ok v => jsonEqStr v df
          | .error _ => false)) := by
  induction entries with
  | nil => rfl
  | cons e rest ih =>
    obtain ⟨v, hv⟩ := h e (List.mem_cons_self e rest)
    have ih' := ih (fun e' he' => h e' (List.mem_cons_of_mem e he'))
    cases hj : jsonEqStr v df <;>
      simp [filterDesignation, hv, ih', List.filter_cons, ok_bind, hj]

/-- C9: on a stored record that is past the no-data checks and holds an
`upcoming_schedule` list of objects each carrying a `designation` key,
`GET /api/upcoming` applies the optional designation filter first and the
optional positive limit second (truncating to the first N, preserving
order), reports `count` as the length of the filtered-and-limited list and
`total_available` as the unfiltered stored length. -/
theorem get_upcoming_days_spec (kvs : List (String × Json))
    (entries : List Json) (limit : Option Int) (desigParam : String)
    (herr : kvs.any (fun p => p.1 = "error") = false)
    (hst : jsonEqStr ((lookupKey kvs "status").getD .null) "no_data" = false)
    (hup : lookupKey kvs "upcoming_schedule" = some (.arr entries))
    (hdes : ∀ e ∈ entries, ∃ v, pySubscript e "designation" = .ok v) :
    get_upcoming_days (.obj kvs) limit desigParam
      = .ok (200, .obj [
          ("upcoming", .arr (specLimit limit
            (specDesignationFilter (pyUpper desigParam) entries))),
          ("count", .int (specLimit limit
            (specDesignationFilter (pyUpper desigParam) entries)).length),
          ("total_available", .int entries.length)]) := by
  have hlim : ∀ filtered : List Json,
      (match limit with
       | some n => if n != 0 ∧ 0 < n then filtered.take n.toNat else filtered
       | none => filtered) = specLimit limit filtered := by
    intro filtered
    cases limit with
    | none => rfl
    | some n =>
      unfold specLimit
      dsimp only
      by_cases hp : 0 < n
      · rw [if_pos ⟨by simpa using hp.ne', hp⟩, if_pos hp]
      · rw [if_neg (fun hc => hp hc.2), if_neg hp]
  by_cases hdf : pyUpper desigParam = "A" ∨ pyUpper desigParam = "B" ∨
      pyUpper desigParam = "C"
  · have hne : pyUpper desigParam ≠ "" := by
      rcases hdf with h | h | h <;> rw [h] <;> decide
    simp only [get_upcoming_days, pyIn, herr, ok_bind, pyDictGet, hst,
      Bool.false_eq_true, if_false, hup, Option.getD_some,
      if_pos (And.intro hne hdf),
      filterDesignation_ok (pyUpper desigParam) entries hdes, hlim,
      specDesignationFilter, if_pos hdf]
  · simp only [get_upcoming_days, pyIn, herr, ok_bind, pyDictGet, hst,
      Bool.false_eq_true, if_false, hup, Option.getD_some, hlim,
      specDesignationFilter, if_neg hdf,
      if_neg (fun hc : _ ∧ _ => hdf hc.2)]

/-- Witness for C9, realizing the spec's scenario: `limit=2&designation=a`
on a stored list with three A-entries (and one B) returns the first two
A-entries with `count = 2` and `total_available = 4`. -/
theorem get_upcoming_days_witness :
    get_upcoming_days
      (.obj [("fetched_at", .str "2026-01-27T18:00:00"),
        ("upcoming_schedule", .arr [
          .obj [("date", .str "2026-01-27"), ("designation", .str "A"),
                ("day", .int 27)],
          .obj [("date", .str "2026-01-28"), ("designation", .str "B"),
                ("day", .int 28)],
          .obj [("date", .str "2026-01-29"), ("designation", .str "A"),
                ("day", .int 29)],
          .obj [("date", .str "2026-01-30"), ("designation", .str "A"),
                ("day", .int 30)]])])
      (some 2) "a"
      = .ok (200, .obj [
          ("upcoming", .arr (specLimit (some 2)
            (specDesignationFilter (pyUpper "a") [
              .obj [("date", .str "2026-01-27"), ("designation", .str "A"),
                    ("day", .int 27)],
              .obj [("date", .str "2026-01-28"), ("designation", .str "B"),
                    ("day", .int 28)],
              .obj [("date", .str "2026-01-29"), ("designation", .str "A"),
                    ("day", .int 29)],
              .obj [("date", .str "2026-01-30"), ("designation", .str "A"),
                    ("day", .int 30)]]))),
          ("count", .int (specLimit (some 2)
            (specDesignationFilter (pyUpper "a") [
              .obj [("date", .str "2026-01-27"), ("designation", .str "A"),
                    ("day", .int 27)],
              .obj [("date", .str "2026-01-28"), ("designation", .str "B"),
                    ("day", .int 28)],
              .obj [("date", .str "2026-01-29"), ("designation", .str "A"),
                    ("day", .int 29)],
              .obj [("date", .str "2026-01-30"), ("designation", .str "A"),
                    ("day", .int 30)]])).length),
          ("total_available", .int 4)]) :=
  get_upcoming_days_spec
    [("fetched_at", .str "2026-01-27T18:00:00"),
     ("upcoming_schedule", .arr [
       .obj [("date", .str "2026-01-27"), ("designation", .str "A"),
             ("day", .int 27)],
       .obj [("date", .str "2026-01-28"), ("designation", .str "B"),
             ("day", .int 28)],
       .obj [("date", .str "2026-01-29"), ("designation", .str "A"),
             ("day", .int 29)],
       .obj [("date", .str "2026-01-30"), ("designation", .str "A"),
             ("day", .int 30)]])]
    [.obj [("date", .str "2026-01-27"), ("designation", .str "A"),
           ("day", .int 27)],
     .obj [("date", .str "2026-01-28"), ("designation", .str "B"),
           ("day", .int 28)],
     .obj [("date", .str "2026-01-29"), ("designation", .str "A"),
           ("day", .int 29)],
     .obj [("date", .str "2026-01-30"), ("designation", .str "A"),
           ("day", .int 30)]]
    (some 2) "a" rfl rfl rfl
    (by
      intro e he
      fin_cases he <;> exact ⟨_, rfl⟩)

/-- After `d[k] = v`, looking up `k` yields `v`. -/
theorem lookupKey_setKey_same (kvs : List (String × Json)) (k : String)
    (v : Json) : lookupKey (setKey kvs k v) k = some v := by
  induction kvs with
  | nil => simp [setKey, lookupKey]
  | cons p rest ih =>
    by_cases hk : p.1 = k
    · simp [setKey, hk, lookupKey]
    · simp [setKey, hk, lookupKey, ih]

/-- After `d[k] = v`, every other key is bound as before. -/
theorem lookupKey_setKey_other (kvs : List (String × Json)) (k k' : String)
    (v : Json) (h : k' ≠ k) :
    lookupKey (setKey kvs k v) k' = lookupKey kvs k' := by
  induction kvs with
  | nil =>
    simp only [setKey, lookupKey]
    rw [if_neg (fun hc => h hc.symm)]
  | cons p rest ih =>
    by_cases hk : p.1 = k
    · have : ¬ k = k' := fun hc => h hc.symm
      simp [setKey, hk, lookupKey, this, ih]
    · simp [setKey, hk, lookupKey, ih]

/-- C10 (amended): for every JSON-object payload, `save_schedule` succeeds
and the subsequently loaded record is the payload extended with
`received_at` stamped at save time: `received_at` is bound to the stamp and
every other key is bound exactly as in the payload.  (As originally stated —
for every JSON-representable payload — the claim fails on non-object
payloads: see `save_schedule_non_object_raises`.) -/
theorem save_load_roundtrip (kvs : List (String × Json)) (nowIso : String) :
    ∃ rkvs, save_schedule (.obj kvs) nowIso = .ok (.obj rkvs) ∧
      load_schedule (.obj rkvs) = .obj rkvs ∧
      lookupKey rkvs "received_at" = some (.str nowIso) ∧
      ∀ k, k ≠ "received_at" → lookupKey rkvs k = lookupKey kvs k := by
  refine ⟨setKey kvs "received_at" (.str nowIso), rfl, rfl, ?_, ?_⟩
  · exact lookupKey_setKey_same kvs "received_at" (.str nowIso)
  · intro k hk
    exact lookupKey_setKey_other kvs "received_at" k (.str nowIso) hk

/-- Counterexample to C10 as stated: a JSON-representable but non-object
payload (here an empty array) makes `data['received_at'] = ...` inside
`save_schedule` raise `TypeError`, so no record is stored and no round trip
happens. -/
theorem save_schedule_non_object_raises :
    save_schedule (.arr []) "2026-01-27T18:00:05" = .error () := rfl

end DomSched
